import Mathlib

/-!
Shallow embedding of the 2D pool physics engine (src/engine/Engine.ts,
src/math/utils.ts, src/game/Ball.ts) and proofs about its collision
detection, resolution and scheduling code.  Machine floats are modelled by
real numbers (the source's `Math.sqrt` becomes `Real.sqrt`); the exact
rational loop arithmetic of the narrow-phase sub-stepping is modelled over
`ℚ` so that it can be evaluated.
-/

namespace Pool

/-- `Vector2` from `math/utils.ts`: an (x, y) pair of numbers. -/
@[ext] structure Vector2 where
  x : ℝ
  y : ℝ

namespace Vector2

/-- `Vector2.Dot`. -/
noncomputable def Dot (a b : Vector2) : ℝ := a.x * b.x + a.y * b.y

/-- `Vector2.Mult` (scalar multiple). -/
noncomputable def Mult (a : Vector2) (s : ℝ) : Vector2 := ⟨a.x * s, a.y * s⟩

/-- `Vector2.MagnitudeSquared`. -/
noncomputable def MagnitudeSquared (a : Vector2) : ℝ := a.x * a.x + a.y * a.y

/-- `Vector2.ZERO`. -/
noncomputable def ZERO : Vector2 := ⟨0, 0⟩

/-- `Vector2.Subtract` (componentwise `A - B`). -/
noncomputable def Subtract (A B : Vector2) : Vector2 := ⟨A.x - B.x, A.y - B.y⟩

/-- `Vector2.Add` (componentwise `A + B`). -/
noncomputable def Add (A B : Vector2) : Vector2 := ⟨A.x + B.x, A.y + B.y⟩

/-- `Vector2.Normalize`: divides by the length when it is non-zero
(JavaScript's `if (length)` truthiness test) and produces the zero vector
otherwise. Modelled as a value-returning function (the source mutates in
place and, in the `Ball` variant of utils, returns `this`). -/
noncomputable def Normalize (v : Vector2) : Vector2 :=
  let length := Real.sqrt (v.x * v.x + v.y * v.y)
  if length = 0 then ⟨0, 0⟩ else ⟨v.x / length, v.y / length⟩

end Vector2

/-- `Transform` from `math/utils.ts`: a position plus a rotation. -/
@[ext] structure Transform where
  position : Vector2
  rotation : ℝ

/-- `clamp` from `math/utils.ts`: `Math.min(Math.max(num, lo), hi)`. -/
noncomputable def clamp (num lo hi : ℝ) : ℝ := min (max num lo) hi

/-- `AABB` from `Engine.ts`: an axis-aligned bounding box given by its two
corner vectors. -/
@[ext] structure AABB where
  min : Vector2
  max : Vector2

/-- The closed set of shape variants handled by the engine
(`Circle` and `Box` classes in `Engine.ts`), carrying their geometry. -/
inductive ShapeV where
  | circle (radius : ℝ)
  | box (width height : ℝ)

/-- `Shape.GenerateAABB` for each variant: a circle occupies
`position ± radius` on both axes and a box `position ± half extents`. -/
noncomputable def generateAABB : ShapeV → Transform → AABB
  | .circle r, t =>
      ⟨⟨t.position.x - r, t.position.y - r⟩, ⟨t.position.x + r, t.position.y + r⟩⟩
  | .box w h, t =>
      ⟨⟨t.position.x - w / 2, t.position.y - h / 2⟩,
       ⟨t.position.x + w / 2, t.position.y + h / 2⟩⟩

/-- Nonnegative geometry: circles have nonnegative radius, boxes
nonnegative extents (all shapes built by the game satisfy this). -/
def ShapeV.wf : ShapeV → Prop
  | .circle r => 0 ≤ r
  | .box w h => 0 ≤ w ∧ 0 ≤ h

/-- `CollisionData` from `Engine.ts`: penetration depth and contact normal. -/
@[ext] structure CollisionData where
  penetration : ℝ
  normal : Vector2

/-- The `Circle` shape as consumed by the collision getters: its radius and
its `current` transform (the transform the engine has set before the test). -/
@[ext] structure Circle where
  radius : ℝ
  current : Transform

/-- The `Box` shape as consumed by the collision getters: its extents and
its `current` transform. -/
@[ext] structure Box where
  width : ℝ
  height : ℝ
  current : Transform

/-- `Engine.getCollisionCircleVsCircle`: reports a contact unless the
squared radius sum is strictly smaller than the squared center distance;
the normal is the (in-place) normalized center offset from A to B and the
penetration is the radius sum minus the center distance. -/
noncomputable def getCollisionCircleVsCircle (A B : Circle) : Option CollisionData :=
  let r := A.radius + B.radius
  let radiusSquared := r ^ 2
  let transformA := A.current
  let transformB := B.current
  let distanceSquared := (transformA.position.x - transformB.position.x) ^ 2 +
    (transformA.position.y - transformB.position.y) ^ 2
  if radiusSquared < distanceSquared then none
  else
    let normal := Vector2.Normalize
      ⟨transformB.position.x - transformA.position.x,
       transformB.position.y - transformA.position.y⟩
    let distance := Real.sqrt distanceSquared
    some ⟨r - distance, normal⟩

/-- The `inside` flag computed in `Engine.getCollisionCircleVsAABB` and
`Engine.getCollisionAABBVsCircle`.  The source builds `closest` as a fresh
copy of `n` (`n.copy()` resp. `structuredClone(n)`), clamps its components,
and then tests `n == closest`; in JavaScript this compares the object
references of two distinct objects, so the test is false for every input,
whatever the clamped values are. -/
def circleVsAABBInside (_A : Circle) (_B : Box) : Bool := false

/-- `Engine.getCollisionCircleVsAABB` (A the circle, B the box): clamps the
center-to-center offset `n` to the box half extents, measures the squared
distance from the clamped point back to `n`, and reports a contact unless
that squared distance exceeds the squared radius (with the `inside` escape,
which never fires, see `circleVsAABBInside`). -/
noncomputable def getCollisionCircleVsAABB (A : Circle) (B : Box) : Option CollisionData :=
  let transformA := A.current
  let transformB := B.current
  let n : Vector2 := ⟨transformB.position.x - transformA.position.x,
                      transformB.position.y - transformA.position.y⟩
  let x_extent := B.width / 2
  let y_extent := B.height / 2
  let closest : Vector2 := ⟨clamp n.x (-x_extent) x_extent, clamp n.y (-y_extent) y_extent⟩
  let inside := circleVsAABBInside A B
  let normal : Vector2 := ⟨closest.x - n.x, closest.y - n.y⟩
  let distanceSquared := normal.x ^ 2 + normal.y ^ 2
  let circleRadius := A.radius
  if distanceSquared > circleRadius * circleRadius ∧ ¬ inside then none
  else
    let distance := Real.sqrt distanceSquared
    let nrm := Vector2.Normalize normal
    let penetration := circleRadius - distance
    if inside then some ⟨penetration, ⟨-nrm.x, -nrm.y⟩⟩
    else some ⟨penetration, nrm⟩

/-- `Engine.getCollisionAABBVsCircle` (A the box, B the circle): the same
computation as `getCollisionCircleVsAABB` with the roles of the two shapes
swapped (`n` still points from the circle center to nothing else than the
other body: here it is circle minus box). -/
noncomputable def getCollisionAABBVsCircle (A : Box) (B : Circle) : Option CollisionData :=
  let transformA := A.current
  let transformB := B.current
  let n : Vector2 := ⟨transformB.position.x - transformA.position.x,
                      transformB.position.y - transformA.position.y⟩
  let x_extent := A.width / 2
  let y_extent := A.height / 2
  let closest : Vector2 := ⟨clamp n.x (-x_extent) x_extent, clamp n.y (-y_extent) y_extent⟩
  let inside := circleVsAABBInside B A
  let normal : Vector2 := ⟨closest.x - n.x, closest.y - n.y⟩
  let distanceSquared := normal.x ^ 2 + normal.y ^ 2
  let circleRadius := B.radius
  if distanceSquared > circleRadius * circleRadius ∧ ¬ inside then none
  else
    let distance := Real.sqrt distanceSquared
    let nrm := Vector2.Normalize normal
    let penetration := circleRadius - distance
    if inside then some ⟨penetration, ⟨-nrm.x, -nrm.y⟩⟩
    else some ⟨penetration, nrm⟩

/-- C9: normalizing the zero vector yields the zero vector (defined, no
division-by-zero fault), and consequently the circle-vs-circle test on two
circles with exactly coincident centers returns a contact whose normal is
the zero vector (and whose penetration is the radius sum), not an
undefined value. -/
theorem normalize_zero_and_coincident_centers :
    (Vector2.Normalize ⟨0, 0⟩ = ⟨0, 0⟩)
    ∧ ∀ (rA rB : ℝ) (T : Transform),
        getCollisionCircleVsCircle ⟨rA, T⟩ ⟨rB, T⟩ = some ⟨rA + rB, ⟨0, 0⟩⟩ := by
  have hnz : Vector2.Normalize ⟨0, 0⟩ = ⟨0, 0⟩ := by
    simp [Vector2.Normalize]
  refine ⟨hnz, ?_⟩
  intro rA rB T
  have hcond : ¬ ((rA + rB) ^ 2 < (T.position.x - T.position.x) ^ 2 +
      (T.position.y - T.position.y) ^ 2) := by
    simp [sq_nonneg]
  simp only [getCollisionCircleVsCircle, if_neg hcond]
  simp [hnz, Real.sqrt_zero]

/-- C1: when the circle center lies strictly inside the box, the `inside`
branch of the box-circle tests is nevertheless not taken (the flag is
always false, see `circleVsAABBInside`); the outside branch returns
penetration = radius (the distance computed from the unchanged, i.e.
zero, perpendicular is 0) and the zero normal, which happens to coincide
with the negated normalized perpendicular, since negating the zero vector
is the zero vector. -/
theorem circleVsAABB_inside_branch_dead (A : Circle) (B : Box)
    (h1 : -(B.width / 2) < B.current.position.x - A.current.position.x)
    (h2 : B.current.position.x - A.current.position.x < B.width / 2)
    (h3 : -(B.height / 2) < B.current.position.y - A.current.position.y)
    (h4 : B.current.position.y - A.current.position.y < B.height / 2) :
    circleVsAABBInside A B = false
    ∧ getCollisionCircleVsAABB A B = some ⟨A.radius, ⟨0, 0⟩⟩
    ∧ getCollisionAABBVsCircle B A = some ⟨A.radius, ⟨0, 0⟩⟩
    ∧ (Vector2.mk (-(Vector2.Normalize ⟨0, 0⟩).x) (-(Vector2.Normalize ⟨0, 0⟩).y)) = ⟨0, 0⟩ := by
  have hzn : Vector2.Normalize ⟨0, 0⟩ = ⟨0, 0⟩ := by simp [Vector2.Normalize]
  have hc1 : clamp (B.current.position.x - A.current.position.x)
      (-(B.width / 2)) (B.width / 2) = B.current.position.x - A.current.position.x := by
    rw [clamp, max_eq_left h1.le, min_eq_left h2.le]
  have hc2 : clamp (B.current.position.y - A.current.position.y)
      (-(B.height / 2)) (B.height / 2) = B.current.position.y - A.current.position.y := by
    rw [clamp, max_eq_left h3.le, min_eq_left h4.le]
  have hc3 : clamp (A.current.position.x - B.current.position.x)
      (-(B.width / 2)) (B.width / 2) = A.current.position.x - B.current.position.x := by
    rw [clamp, max_eq_left (by linarith), min_eq_left (by linarith)]
  have hc4 : clamp (A.current.position.y - B.current.position.y)
      (-(B.height / 2)) (B.height / 2) = A.current.position.y - B.current.position.y := by
    rw [clamp, max_eq_left (by linarith), min_eq_left (by linarith)]
  refine ⟨rfl, ?_, ?_, by rw [hzn]; simp⟩
  · simp only [getCollisionCircleVsAABB, circleVsAABBInside, hc1, hc2]
    simp [hzn, mul_self_nonneg]
  · simp only [getCollisionAABBVsCircle, circleVsAABBInside, hc3, hc4]
    simp [hzn, mul_self_nonneg]

/-- C1 witness: a box of extents 20 x 20 centered at (100, 10) and a
circle of radius 5 centered at (101, 10); its center is strictly inside
the box, the collision functions return penetration 5 with the zero
normal, and the inside flag is false. -/
theorem circleVsAABB_inside_branch_dead_witness :
    circleVsAABBInside ⟨5, ⟨⟨101, 10⟩, 0⟩⟩ ⟨20, 20, ⟨⟨100, 10⟩, 0⟩⟩ = false
    ∧ getCollisionCircleVsAABB ⟨5, ⟨⟨101, 10⟩, 0⟩⟩ ⟨20, 20, ⟨⟨100, 10⟩, 0⟩⟩
        = some ⟨5, ⟨0, 0⟩⟩
    ∧ getCollisionAABBVsCircle ⟨20, 20, ⟨⟨100, 10⟩, 0⟩⟩ ⟨5, ⟨⟨101, 10⟩, 0⟩⟩
        = some ⟨5, ⟨0, 0⟩⟩
    ∧ (Vector2.mk (-(Vector2.Normalize ⟨0, 0⟩).x) (-(Vector2.Normalize ⟨0, 0⟩).y)) = ⟨0, 0⟩ :=
  circleVsAABB_inside_branch_dead ⟨5, ⟨⟨101, 10⟩, 0⟩⟩ ⟨20, 20, ⟨⟨100, 10⟩, 0⟩⟩
    (by norm_num) (by norm_num) (by norm_num) (by norm_num)

/-- C4 counterexample: two circles of radius 1 with centers at distance
exactly 2 (squared distance 4 equals the squared radius sum): the code
reports a contact although the squared center distance is not strictly
less than the squared radius sum, refuting the claimed strict-inequality
characterization. -/
theorem circleVsCircle_touching_cex :
    (getCollisionCircleVsCircle ⟨1, ⟨⟨0, 0⟩, 0⟩⟩ ⟨1, ⟨⟨2, 0⟩, 0⟩⟩).isSome = true
    ∧ ¬ (((0 : ℝ) - 2) ^ 2 + ((0 : ℝ) - 0) ^ 2 < ((1 : ℝ) + 1) ^ 2) := by
  constructor
  · have h : ¬ (((1 : ℝ) + 1) ^ 2 < ((0 : ℝ) - 2) ^ 2 + ((0 : ℝ) - 0) ^ 2) := by norm_num
    simp only [getCollisionCircleVsCircle]
    norm_num
  · norm_num

/-- C4 (amended): the circle-vs-circle test reports a contact if and only
if the squared center distance is less than **or equal to** the squared
radius sum, and every reported contact carries penetration
`(rA + rB) - distance` and the normalized center offset from A to B as its
normal. -/
theorem circleVsCircle_contact_charact (A B : Circle) :
    ((getCollisionCircleVsCircle A B).isSome = true ↔
      (A.current.position.x - B.current.position.x) ^ 2 +
        (A.current.position.y - B.current.position.y) ^ 2 ≤ (A.radius + B.radius) ^ 2)
    ∧ ∀ cd : CollisionData, getCollisionCircleVsCircle A B = some cd →
        cd.penetration = (A.radius + B.radius) -
            Real.sqrt ((A.current.position.x - B.current.position.x) ^ 2 +
              (A.current.position.y - B.current.position.y) ^ 2)
          ∧ cd.normal = Vector2.Normalize
              ⟨B.current.position.x - A.current.position.x,
               B.current.position.y - A.current.position.y⟩ := by
  by_cases h : (A.radius + B.radius) ^ 2 <
      (A.current.position.x - B.current.position.x) ^ 2 +
        (A.current.position.y - B.current.position.y) ^ 2
  · constructor
    · simp only [getCollisionCircleVsCircle, if_pos h]
      simp [not_le.mpr h]
    · intro cd hcd
      simp only [getCollisionCircleVsCircle, if_pos h] at hcd
      exact absurd hcd (by simp)
  · constructor
    · simp only [getCollisionCircleVsCircle, if_neg h]
      simp [not_lt.mp h]
    · intro cd hcd
      simp only [getCollisionCircleVsCircle, if_neg h] at hcd
      rw [← Option.some_inj.mp hcd]
      exact ⟨rfl, rfl⟩

/-- C4 witness: two circles of radius 1 with centers (0,0) and (1,0) are
reported in contact, obtained from the characterization since the squared
center distance 1 is at most the squared radius sum 4. -/
theorem circleVsCircle_contact_charact_witness :
    (getCollisionCircleVsCircle ⟨1, ⟨⟨0, 0⟩, 0⟩⟩ ⟨1, ⟨⟨1, 0⟩, 0⟩⟩).isSome = true :=
  (circleVsCircle_contact_charact ⟨1, ⟨⟨0, 0⟩, 0⟩⟩ ⟨1, ⟨⟨1, 0⟩, 0⟩⟩).1.mpr (by norm_num)

/-- The physical state of `RigidBody` from `Engine.ts` that the embedded
operations touch: shape variant, the pose before the current step, the
authoritative pose, velocity, restitution, inverse mass, force accumulator
and the stationary flag (the `static` and `debug` flags play no role in the
embedded code paths). -/
@[ext] structure RigidBody where
  shape : ShapeV
  previous : Transform
  transform : Transform
  velocity : Vector2
  restitution : ℝ
  inv_mass : ℝ
  force : Vector2
  isStationary : Bool

/-- `Manifold.applyPositionalCorrection`: with `percent = 1` and
`slop = 0.01`, moves body A against the normal and body B along it by the
correction scaled by the respective inverse masses. -/
noncomputable def applyPositionalCorrection (A B : RigidBody) (cd : CollisionData) :
    RigidBody × RigidBody :=
  let percent : ℝ := 1
  let slop : ℝ := 0.01
  let correction := max (cd.penetration - slop) 0 / ((A.inv_mass + B.inv_mass) * percent)
  let correctionVector := cd.normal.Mult correction
  ({ A with transform := ⟨Vector2.Subtract A.transform.position
        (correctionVector.Mult A.inv_mass), A.transform.rotation⟩ },
   { B with transform := ⟨Vector2.Add B.transform.position
        (correctionVector.Mult B.inv_mass), B.transform.rotation⟩ })

/-- `Manifold.resolveCollision`: returns early when the relative velocity
along the normal is positive, otherwise applies the restitution impulse to
both velocities and then the positional correction. -/
noncomputable def resolveCollision (A B : RigidBody) (cd : CollisionData) :
    RigidBody × RigidBody :=
  let relativeVelocity : Vector2 := ⟨B.velocity.x - A.velocity.x, B.velocity.y - A.velocity.y⟩
  let velocityAlongNormal := relativeVelocity.Dot cd.normal
  if 0 < velocityAlongNormal then (A, B)
  else
    let restitution := min A.restitution B.restitution
    let impulseScalar := (-(1 + restitution) * velocityAlongNormal) / (A.inv_mass + B.inv_mass)
    let impulse := cd.normal.Mult impulseScalar
    let A1 := { A with velocity := Vector2.Subtract A.velocity (impulse.Mult A.inv_mass) }
    let B1 := { B with velocity := Vector2.Add B.velocity (impulse.Mult B.inv_mass) }
    applyPositionalCorrection A1 B1 cd

/-- C3 counterexample: contact of penetration 2.01 along the unit normal
(1,0) between two bodies of inverse mass 1 each; one positional-correction
call moves A to (-1,0) and B to (1,0), a combined displacement of 2, which
is not strictly less than penetration minus slop (2.01 - 0.01 = 2): the
correction removes the whole penetration beyond the slop in one pass. -/
theorem positional_correction_full_cex :
    (applyPositionalCorrection
        ⟨.circle 1, ⟨⟨0, 0⟩, 0⟩, ⟨⟨0, 0⟩, 0⟩, ⟨0, 0⟩, 1, 1, ⟨0, 0⟩, false⟩
        ⟨.circle 1, ⟨⟨0, 0⟩, 0⟩, ⟨⟨0, 0⟩, 0⟩, ⟨0, 0⟩, 1, 1, ⟨0, 0⟩, false⟩
        ⟨2.01, ⟨1, 0⟩⟩).1.transform.position = ⟨-1, 0⟩
    ∧ (applyPositionalCorrection
        ⟨.circle 1, ⟨⟨0, 0⟩, 0⟩, ⟨⟨0, 0⟩, 0⟩, ⟨0, 0⟩, 1, 1, ⟨0, 0⟩, false⟩
        ⟨.circle 1, ⟨⟨0, 0⟩, 0⟩, ⟨⟨0, 0⟩, 0⟩, ⟨0, 0⟩, 1, 1, ⟨0, 0⟩, false⟩
        ⟨2.01, ⟨1, 0⟩⟩).2.transform.position = ⟨1, 0⟩
    ∧ ¬ ((1 : ℝ) + 1 < 2.01 - 0.01) := by
  have hmax : max ((2.01 : ℝ) - 0.01) 0 = 2 := by
    rw [max_eq_left (by norm_num)]; norm_num
  refine ⟨?_, ?_, by norm_num⟩ <;>
    · simp only [applyPositionalCorrection, Vector2.Mult, Vector2.Subtract, Vector2.Add, hmax]
      ext <;> norm_num

/-- C3 (amended): when the penetration is at least the 0.01 slop and the
inverse masses have a positive sum, one positional-correction call moves A
against the normal by the inverse-mass share `inv_mass_A / (sum)` of
`penetration - 0.01` and B along the normal by the complementary share, so
the combined displacement equals `penetration - 0.01` exactly (the
correction percentage is 1): the correction is complete up to the slop
rather than a strict under-correction. -/
theorem positional_correction_shares (A B : RigidBody) (cd : CollisionData)
    (hp : 0.01 ≤ cd.penetration) (hm : 0 < A.inv_mass + B.inv_mass) :
    (applyPositionalCorrection A B cd).1.transform.position =
        Vector2.Subtract A.transform.position
          (cd.normal.Mult ((cd.penetration - 0.01) * (A.inv_mass / (A.inv_mass + B.inv_mass))))
    ∧ (applyPositionalCorrection A B cd).2.transform.position =
        Vector2.Add B.transform.position
          (cd.normal.Mult ((cd.penetration - 0.01) * (B.inv_mass / (A.inv_mass + B.inv_mass)))) := by
  have hmax : max (cd.penetration - 0.01) 0 = cd.penetration - 0.01 :=
    max_eq_left (by linarith)
  have hne : A.inv_mass + B.inv_mass ≠ 0 := ne_of_gt hm
  constructor <;>
    · simp only [applyPositionalCorrection, Vector2.Mult, Vector2.Subtract, Vector2.Add, hmax]
      ext <;> · field_simp; ring

/-- C3 witness: the amended statement evaluated at two bodies of inverse
mass 1 and a contact of penetration 2.01 along the unit normal (1,0). -/
theorem positional_correction_shares_witness :
    (applyPositionalCorrection
        ⟨.circle 1, ⟨⟨0, 0⟩, 0⟩, ⟨⟨0, 0⟩, 0⟩, ⟨0, 0⟩, 1, 1, ⟨0, 0⟩, false⟩
        ⟨.circle 1, ⟨⟨0, 0⟩, 0⟩, ⟨⟨0, 0⟩, 0⟩, ⟨0, 0⟩, 1, 1, ⟨0, 0⟩, false⟩
        ⟨2.01, ⟨1, 0⟩⟩).1.transform.position =
      Vector2.Subtract ⟨0, 0⟩
        ((Vector2.mk 1 0).Mult (((2.01 : ℝ) - 0.01) * (1 / (1 + 1)))) :=
  (positional_correction_shares
    ⟨.circle 1, ⟨⟨0, 0⟩, 0⟩, ⟨⟨0, 0⟩, 0⟩, ⟨0, 0⟩, 1, 1, ⟨0, 0⟩, false⟩
    ⟨.circle 1, ⟨⟨0, 0⟩, 0⟩, ⟨⟨0, 0⟩, 0⟩, ⟨0, 0⟩, 1, 1, ⟨0, 0⟩, false⟩
    ⟨2.01, ⟨1, 0⟩⟩ (by norm_num) (by norm_num)).1

/-- C5: if the relative velocity of B minus A along the contact normal is
nonnegative at detection time, `resolveCollision` leaves both bodies'
velocity vectors unchanged (either through the early separating return,
or, at exactly zero, through a zero impulse). -/
theorem resolveCollision_separating_noop (A B : RigidBody) (cd : CollisionData)
    (hm : ¬ (A.inv_mass = 0 ∧ B.inv_mass = 0))
    (h : 0 ≤ (Vector2.mk (B.velocity.x - A.velocity.x) (B.velocity.y - A.velocity.y)).Dot cd.normal) :
    (resolveCollision A B cd).1.velocity = A.velocity
    ∧ (resolveCollision A B cd).2.velocity = B.velocity := by
  by_cases hpos :
      0 < (Vector2.mk (B.velocity.x - A.velocity.x) (B.velocity.y - A.velocity.y)).Dot cd.normal
  · simp [resolveCollision, if_pos hpos]
  · have hz : (Vector2.mk (B.velocity.x - A.velocity.x) (B.velocity.y - A.velocity.y)).Dot cd.normal = 0 :=
      le_antisymm (not_lt.mp hpos) h
    simp only [resolveCollision, if_neg hpos, applyPositionalCorrection, hz]
    constructor <;> · ext <;> simp [Vector2.Mult, Vector2.Subtract, Vector2.Add]

/-- C5 witness: body A at rest and body B receding with velocity (1,0)
along the normal (1,0) (inverse masses 1 and 0): both velocities are
unchanged by `resolveCollision`. -/
theorem resolveCollision_separating_noop_witness :
    (resolveCollision
        ⟨.circle 1, ⟨⟨0, 0⟩, 0⟩, ⟨⟨0, 0⟩, 0⟩, ⟨0, 0⟩, 1, 1, ⟨0, 0⟩, false⟩
        ⟨.circle 1, ⟨⟨2, 0⟩, 0⟩, ⟨⟨2, 0⟩, 0⟩, ⟨1, 0⟩, 1, 0, ⟨0, 0⟩, false⟩
        ⟨0.5, ⟨1, 0⟩⟩).1.velocity = ⟨0, 0⟩
    ∧ (resolveCollision
        ⟨.circle 1, ⟨⟨0, 0⟩, 0⟩, ⟨⟨0, 0⟩, 0⟩, ⟨0, 0⟩, 1, 1, ⟨0, 0⟩, false⟩
        ⟨.circle 1, ⟨⟨2, 0⟩, 0⟩, ⟨⟨2, 0⟩, 0⟩, ⟨1, 0⟩, 1, 0, ⟨0, 0⟩, false⟩
        ⟨0.5, ⟨1, 0⟩⟩).2.velocity = ⟨1, 0⟩ :=
  resolveCollision_separating_noop
    ⟨.circle 1, ⟨⟨0, 0⟩, 0⟩, ⟨⟨0, 0⟩, 0⟩, ⟨0, 0⟩, 1, 1, ⟨0, 0⟩, false⟩
    ⟨.circle 1, ⟨⟨2, 0⟩, 0⟩, ⟨⟨2, 0⟩, 0⟩, ⟨1, 0⟩, 1, 0, ⟨0, 0⟩, false⟩
    ⟨0.5, ⟨1, 0⟩⟩ (by norm_num) (by simp [Vector2.Dot])

/-- C7: for two bodies of equal positive inverse mass, both restitutions
equal to 1, velocities colinear with the unit contact normal and
approaching (the coefficient of B smaller than that of A), the impulse
stage of `resolveCollision` swaps the two velocities exactly (in real
arithmetic). -/
theorem resolveCollision_equal_mass_swap (A B : RigidBody) (cd : CollisionData)
    (k a b : ℝ) (hk : 0 < k)
    (hmA : A.inv_mass = k) (hmB : B.inv_mass = k)
    (heA : A.restitution = 1) (heB : B.restitution = 1)
    (hn : cd.normal.Dot cd.normal = 1)
    (hvA : A.velocity = cd.normal.Mult a) (hvB : B.velocity = cd.normal.Mult b)
    (happ : b < a) :
    (resolveCollision A B cd).1.velocity = B.velocity
    ∧ (resolveCollision A B cd).2.velocity = A.velocity := by
  simp only [Vector2.Dot] at hn
  have hD : (Vector2.mk (B.velocity.x - A.velocity.x) (B.velocity.y - A.velocity.y)).Dot
      cd.normal = b - a := by
    rw [hvA, hvB]
    simp only [Vector2.Mult, Vector2.Dot]
    linear_combination (b - a) * hn
  have hkne : k ≠ 0 := ne_of_gt hk
  have hcond : ((Vector2.mk ((cd.normal.Mult b).x - (cd.normal.Mult a).x)
      ((cd.normal.Mult b).y - (cd.normal.Mult a).y)).Dot cd.normal) = b - a := by
    simp only [Vector2.Mult, Vector2.Dot]
    linear_combination (b - a) * hn
  simp only [resolveCollision, applyPositionalCorrection, hmA, hmB, heA, heB,
    min_self, hvA, hvB, hcond]
  split_ifs with hsplit
  · exfalso; linarith
  · constructor <;>
      · ext <;> · simp only [Vector2.Mult, Vector2.Subtract, Vector2.Add]; field_simp; ring

/-- C7 witness: unit normal (1,0), inverse masses 1, restitutions 1, A
moving right at speed 1 and B moving left at speed 1: after resolution A
carries B's old velocity and B carries A's. -/
theorem resolveCollision_equal_mass_swap_witness :
    (resolveCollision
        ⟨.circle 1, ⟨⟨0, 0⟩, 0⟩, ⟨⟨0, 0⟩, 0⟩, ⟨1, 0⟩, 1, 1, ⟨0, 0⟩, false⟩
        ⟨.circle 1, ⟨⟨2, 0⟩, 0⟩, ⟨⟨2, 0⟩, 0⟩, ⟨-1, 0⟩, 1, 1, ⟨0, 0⟩, false⟩
        ⟨0.5, ⟨1, 0⟩⟩).1.velocity = ⟨-1, 0⟩
    ∧ (resolveCollision
        ⟨.circle 1, ⟨⟨0, 0⟩, 0⟩, ⟨⟨0, 0⟩, 0⟩, ⟨1, 0⟩, 1, 1, ⟨0, 0⟩, false⟩
        ⟨.circle 1, ⟨⟨2, 0⟩, 0⟩, ⟨⟨2, 0⟩, 0⟩, ⟨-1, 0⟩, 1, 1, ⟨0, 0⟩, false⟩
        ⟨0.5, ⟨1, 0⟩⟩).2.velocity = ⟨1, 0⟩ :=
  resolveCollision_equal_mass_swap
    ⟨.circle 1, ⟨⟨0, 0⟩, 0⟩, ⟨⟨0, 0⟩, 0⟩, ⟨1, 0⟩, 1, 1, ⟨0, 0⟩, false⟩
    ⟨.circle 1, ⟨⟨2, 0⟩, 0⟩, ⟨⟨2, 0⟩, 0⟩, ⟨-1, 0⟩, 1, 1, ⟨0, 0⟩, false⟩
    ⟨0.5, ⟨1, 0⟩⟩ 1 1 (-1) (by norm_num) rfl rfl rfl rfl
    (by simp [Vector2.Dot]) (by ext <;> simp [Vector2.Mult])
    (by ext <;> simp [Vector2.Mult]) (by norm_num)

/-- `Ball` from `Ball.ts`: a rigid body with an extra spin vector. -/
@[ext] structure Ball extends RigidBody where
  spin : Vector2

/-- `Ball.SPIN_COEFFICIENT`. -/
noncomputable def SPIN_COEFFICIENT : ℝ := 1000

/-- `Ball.SPIN_DECAY_COEFFICIENT`. -/
noncomputable def SPIN_DECAY_COEFFICIENT : ℝ := 1.1

/-- `Ball.FRICTION_COEFFICIENT`. -/
noncomputable def FRICTION_COEFFICIENT : ℝ := 9000

/-- `Ball.applySpin`: enqueue the spin force and decay the spin vector. -/
noncomputable def applySpin (timeStep : ℝ) (b : Ball) : Ball :=
  let spinForce := b.spin.Mult SPIN_COEFFICIENT
  let b1 : Ball := { b with force := Vector2.Add b.force spinForce }
  let spinReduction := b.spin.Mult (SPIN_DECAY_COEFFICIENT * timeStep)
  { b1 with spin := Vector2.Subtract b.spin spinReduction }

/-- `Ball.applyFriction`: enqueue a force of fixed magnitude opposing the
normalized velocity direction. -/
noncomputable def applyFriction (b : Ball) : Ball :=
  let friction := (Vector2.Normalize (b.velocity.Mult (-1))).Mult FRICTION_COEFFICIENT
  { b with force := Vector2.Add b.force friction }

/-- `Ball.FixedUpdate`: spin then friction. -/
noncomputable def ballFixedUpdate (timeStep : ℝ) (b : Ball) : Ball :=
  applyFriction (applySpin timeStep b)

/-- The per-body tail of `Engine.applyForces` (after the `FixedUpdate`
hook): integrate force into velocity, velocity into position, snap the
velocity to exactly zero and set the stationary flag when the new
velocity's squared magnitude is below 1, record the previous pose
(`SetTransform`) and clear the force accumulator. -/
noncomputable def integrateBody (timeStep : ℝ) (b : RigidBody) : RigidBody :=
  let acceleration := b.force.Mult b.inv_mass
  let v1 := Vector2.Add b.velocity (acceleration.Mult timeStep)
  let position := Vector2.Add b.transform.position (v1.Mult timeStep)
  { b with
    velocity := if v1.MagnitudeSquared < 1 then Vector2.ZERO else v1,
    isStationary := if v1.MagnitudeSquared < 1 then true else false,
    previous := b.transform,
    transform := ⟨position, b.transform.rotation⟩,
    force := ⟨0, 0⟩ }

/-- One fixed physics step as seen by a `Ball` that is in contact with no
other body: `Engine.applyForces` runs the ball's `FixedUpdate` hook and
then integrates it.  The collision phases of `SimulatePhysicsStep` leave a
contact-free body's authoritative transform, velocity and flags unchanged,
so this is the whole per-step effect on such a body. -/
noncomputable def stepBall (timeStep : ℝ) (b : Ball) : Ball :=
  let b1 := ballFixedUpdate timeStep b
  { b1 with toRigidBody := integrateBody timeStep b1.toRigidBody }

/-- C8: the friction force computed from normalizing the negated zero
velocity is the zero vector, and a ball at exact rest (zero velocity, zero
spin, empty force accumulator) in no contact stays at the same position
with exactly zero velocity over every number of subsequent steps, with its
stationary flag true after every step. -/
theorem rest_idempotent (dt : ℝ) (b : Ball)
    (hv : b.velocity = Vector2.ZERO) (hs : b.spin = Vector2.ZERO)
    (hf : b.force = Vector2.ZERO) :
    ((Vector2.Normalize (Vector2.ZERO.Mult (-1))).Mult FRICTION_COEFFICIENT = Vector2.ZERO)
    ∧ ∀ k : ℕ, ((stepBall dt)^[k] b).transform.position = b.transform.position
        ∧ ((stepBall dt)^[k] b).velocity = Vector2.ZERO
        ∧ (0 < k → ((stepBall dt)^[k] b).isStationary = true) := by
  have hfr : (Vector2.Normalize (Vector2.ZERO.Mult (-1))).Mult FRICTION_COEFFICIENT
      = Vector2.ZERO := by
    simp [Vector2.Normalize, Vector2.Mult, Vector2.ZERO]
  have hstep : ∀ b' : Ball, b'.velocity = Vector2.ZERO → b'.spin = Vector2.ZERO →
      b'.force = Vector2.ZERO →
      (stepBall dt b').transform.position = b'.transform.position
      ∧ (stepBall dt b').velocity = Vector2.ZERO
      ∧ (stepBall dt b').spin = Vector2.ZERO
      ∧ (stepBall dt b').force = Vector2.ZERO
      ∧ (stepBall dt b').isStationary = true := by
    intro b' hv' hs' hf'
    have hmag : (Vector2.MagnitudeSquared ⟨0, 0⟩ : ℝ) < 1 := by
      simp [Vector2.MagnitudeSquared]
    simp [stepBall, ballFixedUpdate, applySpin, applyFriction, integrateBody,
      hv', hs', hf', Vector2.Add, Vector2.Mult, Vector2.Subtract, Vector2.ZERO,
      Vector2.Normalize, Vector2.MagnitudeSquared]
  have main : ∀ k : ℕ, ((stepBall dt)^[k] b).transform.position = b.transform.position
      ∧ ((stepBall dt)^[k] b).velocity = Vector2.ZERO
      ∧ ((stepBall dt)^[k] b).spin = Vector2.ZERO
      ∧ ((stepBall dt)^[k] b).force = Vector2.ZERO
      ∧ (0 < k → ((stepBall dt)^[k] b).isStationary = true) := by
    intro k
    induction k with
    | zero => exact ⟨rfl, hv, hs, hf, fun h => absurd h (by omega)⟩
    | succ n ih =>
      obtain ⟨hp, hv', hs', hf', _⟩ := ih
      have h' := hstep _ hv' hs' hf'
      rw [Function.iterate_succ_apply']
      exact ⟨h'.1.trans hp, h'.2.1, h'.2.2.1, h'.2.2.2.1, fun _ => h'.2.2.2.2⟩
  exact ⟨hfr, fun k => ⟨(main k).1, (main k).2.1, (main k).2.2.2.2⟩⟩

/-- C8 witness: a concrete resting ball at (3,4) is unmoved and stays
flagged stationary after two steps of 1/60 s. -/
theorem rest_idempotent_witness :
    ((stepBall (1 / 60))^[2]
        ⟨⟨.circle 1, ⟨⟨3, 4⟩, 0⟩, ⟨⟨3, 4⟩, 0⟩, Vector2.ZERO, 1, 1, Vector2.ZERO, true⟩,
          Vector2.ZERO⟩).transform.position
      = (Transform.mk ⟨3, 4⟩ 0).position
    ∧ ((stepBall (1 / 60))^[2]
        ⟨⟨.circle 1, ⟨⟨3, 4⟩, 0⟩, ⟨⟨3, 4⟩, 0⟩, Vector2.ZERO, 1, 1, Vector2.ZERO, true⟩,
          Vector2.ZERO⟩).isStationary = true := by
  have h := (rest_idempotent (1 / 60)
    ⟨⟨.circle 1, ⟨⟨3, 4⟩, 0⟩, ⟨⟨3, 4⟩, 0⟩, Vector2.ZERO, 1, 1, Vector2.ZERO, true⟩,
      Vector2.ZERO⟩ rfl rfl rfl).2 2
  exact ⟨h.1, h.2.2 (by omega)⟩

/-- The accumulator update at the head of the frame callback in
`Engine.Load`: add the frame's (time-scaled) delta, then clamp the
accumulator to `stepDuration * maxStepsPerFrame` when it exceeds that
ceiling. -/
noncomputable def frameAccumulate (D : ℝ) (M : ℕ) (acc delta : ℝ) : ℝ :=
  let acc1 := acc + delta
  if D * M < acc1 then D * M else acc1

/-- The fixed-step loop of the frame callback in `Engine.Load`
(`while (acc > stepDuration) acc -= stepDuration`, one physics step per
iteration), with explicit fuel standing in for the unbounded while loop;
returns the remaining accumulator and the number of steps executed. -/
noncomputable def runSteps : ℕ → ℝ → ℝ → ℝ × ℕ
  | 0, _, acc => (acc, 0)
  | fuel + 1, D, acc =>
    if D < acc then
      let r := runSteps fuel D (acc - D)
      (r.1, r.2 + 1)
    else (acc, 0)

/-- Step-count bound for the fixed-step loop: an accumulator of at most
`D * (m + 1)` yields at most `m` steps, whatever the fuel. -/
lemma runSteps_count_le (D : ℝ) :
    ∀ (fuel m : ℕ) (acc : ℝ), acc ≤ D * (m + 1) → (runSteps fuel D acc).2 ≤ m := by
  intro fuel
  induction fuel with
  | zero => intro m acc _; simp [runSteps]
  | succ f ih =>
    intro m acc hacc
    by_cases h : D < acc
    · match m with
      | 0 =>
        exfalso
        have : acc ≤ D := by push_cast at hacc; linarith
        linarith
      | m' + 1 =>
        have hrec : acc - D ≤ D * (m' + 1) := by push_cast at hacc ⊢; linarith
        have := ih m' (acc - D) hrec
        simp only [runSteps, if_pos h]
        omega
    · simp [runSteps, if_neg h]

/-- C10: the scheduler clamps the accumulator to exactly
`stepDuration * maxStepsPerFrame` whenever adding a frame's elapsed time
would exceed that ceiling, the accumulator never exceeds the ceiling when
the stepping loop begins, and consequently the number of fixed steps
executed in a single frame callback never exceeds `maxStepsPerFrame`. -/
theorem scheduler_step_cap (D : ℝ) (M : ℕ) (hD : 0 < D) :
    (∀ acc delta : ℝ, D * M < acc + delta → frameAccumulate D M acc delta = D * M)
    ∧ (∀ acc delta : ℝ, frameAccumulate D M acc delta ≤ D * M)
    ∧ (∀ (fuel : ℕ) (acc delta : ℝ),
        (runSteps fuel D (frameAccumulate D M acc delta)).2 ≤ M) := by
  have hle : ∀ acc delta : ℝ, frameAccumulate D M acc delta ≤ D * M := by
    intro acc delta
    by_cases h : D * M < acc + delta
    · simp [frameAccumulate, if_pos h]
    · simp only [frameAccumulate, if_neg h]
      linarith [not_lt.mp h]
  refine ⟨?_, hle, ?_⟩
  · intro acc delta h
    simp [frameAccumulate, if_pos h]
  · intro fuel acc delta
    apply runSteps_count_le D
    have := hle acc delta
    nlinarith [hD]

/-- C10 witness: step duration 10 and cap 3: an accumulated 45 is clamped
to 30, and running the stepping loop from a frame with accumulator 25 and
delta 10 executes at most 3 steps. -/
theorem scheduler_step_cap_witness :
    frameAccumulate 10 3 35 10 = 30
    ∧ (runSteps 5 10 (frameAccumulate 10 3 25 10)).2 ≤ 3 := by
  have h := scheduler_step_cap 10 3 (by norm_num)
  refine ⟨(h.1 35 10 (by norm_num)).trans (by norm_num), h.2.2 5 25 10⟩

/-- `subStepResolution` from `Engine.subStep`. -/
noncomputable def subStepResolution : ℝ := 4

/-- The per-body iteration requirements computed at the head of
`Engine.subStep`: on each axis, the absolute displacement of the body's
AABB minimum divided by (current AABB extent / subStepResolution),
rounded up. -/
noncomputable def bodyIterations (s : ShapeV) (previous current : Transform) : ℤ × ℤ :=
  let cur := generateAABB s current
  let prev := generateAABB s previous
  let xMovement := |prev.min.x - cur.min.x|
  let yMovement := |prev.min.y - cur.min.y|
  (⌈xMovement / ((cur.max.x - cur.min.x) / subStepResolution)⌉,
   ⌈yMovement / ((cur.max.y - cur.min.y) / subStepResolution)⌉)

/-- The pair iteration count of `Engine.subStep`: the larger of the two
bodies' requirements on each axis, then the larger of the two axes, plus
one. -/
noncomputable def subStepIterations (A B : RigidBody) : ℤ :=
  let iA := bodyIterations A.shape A.previous A.transform
  let iB := bodyIterations B.shape B.previous B.transform
  max (max iA.1 iB.1) (max iA.2 iB.2) + 1

/-- The interpolation parameters at which `Engine.subStep` tests the pair,
in exact arithmetic: the loop `for (i = 0; i <= 1; i += step)` evaluates
the body at `i + step` on every iteration.  The fuel argument bounds the
number of loop iterations; `subStepParams` supplies enough fuel for the
loop to terminate by its own condition. -/
def subStepLoop : ℕ → ℚ → ℚ → List ℚ
  | 0, _, _ => []
  | fuel + 1, i, step => if i ≤ 1 then (i + step) :: subStepLoop fuel (i + step) step else []

/-- The list of interpolation parameters tested by `Engine.subStep` for an
iteration count of `n`, with `step = 1 / n`. -/
def subStepParams (n : ℕ) : List ℚ := subStepLoop (n + 2) 0 (1 / n)

/-- The loop stops as soon as the counter reaches `(n+1)/n`, which is
greater than 1. -/
lemma subStepLoop_stop (n : ℕ) (hn : 0 < n) (f : ℕ) :
    subStepLoop (f + 1) (((n + 1 : ℕ) : ℚ) / n) (1 / n) = [] := by
  have hn' : (0 : ℚ) < n := by exact_mod_cast hn
  have hcond : ¬ (((n + 1 : ℕ) : ℚ) / n ≤ 1) := by
    rw [div_le_one hn']
    push_cast
    linarith
  simp only [subStepLoop]
  rw [if_neg hcond]

/-- Closed form of the sub-step loop: starting from counter `k/n` with at
least `n + 1 - k` iterations of fuel left, the loop emits
`(k+1)/n, (k+2)/n, …, (n+1)/n`. -/
lemma subStepLoop_closed (n : ℕ) (hn : 0 < n) :
    ∀ (f k : ℕ), n + 1 ≤ f + k → k ≤ n + 1 →
      subStepLoop (f + 1) ((k : ℚ) / n) (1 / n)
        = (List.range (n + 1 - k)).map (fun j => ((k + j + 1 : ℕ) : ℚ) / n) := by
  have hn' : (0 : ℚ) < n := by exact_mod_cast hn
  intro f
  induction f with
  | zero =>
    intro k hfk hk
    have hk' : k = n + 1 := by omega
    subst hk'
    rw [subStepLoop_stop n hn 0]
    simp
  | succ f ih =>
    intro k hfk hk
    by_cases hkn : k ≤ n
    · have hcond : ((k : ℚ)) / n ≤ 1 := by
        rw [div_le_one hn']
        exact_mod_cast hkn
      have hstep : ((k : ℚ)) / n + 1 / n = ((k + 1 : ℕ) : ℚ) / n := by
        push_cast
        rw [div_add_div_same]
      rw [subStepLoop]
      rw [if_pos hcond, hstep, ih (k + 1) (by omega) (by omega)]
      have hrange : n + 1 - k = (n - k) + 1 := by omega
      have hrange2 : n + 1 - (k + 1) = n - k := by omega
      rw [hrange, hrange2, List.range_succ_eq_map]
      simp only [List.map_cons, List.map_map]
      refine List.cons_eq_cons.mpr ⟨by simp, ?_⟩
      refine List.map_congr_left ?_
      intro j _
      simp only [Function.comp_apply]
      push_cast
      ring
    · have hk' : k = n + 1 := by omega
      subst hk'
      rw [subStepLoop_stop n hn (f + 1)]
      simp

/-- C2: the sub-step loop does not keep its interpolation parameters
inside [0, 1].  In exact arithmetic the parameters tested for an iteration
count of `n` are `1/n, 2/n, …, (n+1)/n`; the final one exceeds 1, so a
pose beyond the bodies' current transforms is tested (and would be snapped
to on contact).  In particular, for a pair of two stationary unit circles
the computed iteration count is 1 and the loop tests the parameters 1 and
2. -/
theorem subStep_tests_beyond_current :
    (∀ n : ℕ, 0 < n →
      subStepParams n = (List.range (n + 1)).map (fun j => ((j + 1 : ℕ) : ℚ) / n)
      ∧ ∃ t ∈ subStepParams n, 1 < t)
    ∧ subStepIterations
        ⟨.circle 1, ⟨⟨0, 0⟩, 0⟩, ⟨⟨0, 0⟩, 0⟩, ⟨0, 0⟩, 1, 1, ⟨0, 0⟩, true⟩
        ⟨.circle 1, ⟨⟨3, 0⟩, 0⟩, ⟨⟨3, 0⟩, 0⟩, ⟨0, 0⟩, 1, 1, ⟨0, 0⟩, true⟩ = 1
    ∧ subStepParams 1 = [1, 2] := by
  have hgen : ∀ n : ℕ, 0 < n →
      subStepParams n = (List.range (n + 1)).map (fun j => ((j + 1 : ℕ) : ℚ) / n) := by
    intro n hn
    have h0 : ((0 : ℕ) : ℚ) / n = 0 := by simp
    have := subStepLoop_closed n hn (n + 1) 0 (by omega) (by omega)
    rw [h0] at this
    rw [subStepParams, this]
    simp
  refine ⟨fun n hn => ⟨hgen n hn, ?_⟩, ?_, ?_⟩
  · have hn' : (0 : ℚ) < n := by exact_mod_cast hn
    refine ⟨((n + 1 : ℕ) : ℚ) / n, ?_, ?_⟩
    · rw [hgen n hn]
      exact List.mem_map.mpr ⟨n, List.mem_range.mpr (by omega), rfl⟩
    · rw [one_lt_div hn']
      push_cast
      linarith
  · simp only [subStepIterations, bodyIterations, generateAABB, subStepResolution]
    norm_num
  · have h := hgen 1 (by omega)
    rw [h]
    simp [List.range_succ]
    norm_num

/-- C2 witness: for an iteration count of 3 the loop tests a parameter
greater than 1 (namely 4/3). -/
theorem subStep_tests_beyond_current_witness :
    ∃ t ∈ subStepParams 3, 1 < t :=
  (subStep_tests_beyond_current.1 3 (by norm_num)).2

/-- `Engine.checkCollisionAABBVsAABB`: axis-separation test, true iff the
boxes overlap on both axes. -/
noncomputable def checkCollisionAABBVsAABB (A B : AABB) : Bool :=
  if A.max.x < B.min.x ∨ A.min.x > B.max.x then false
  else if A.max.y < B.min.y ∨ A.min.y > B.max.y then false
  else true

/-- `Engine.checkCollision`: dispatch on the two shape variants (the
`instanceof` chain); box-box pairs fall through and never collide.  The
transforms are the `current` transforms the engine has stored into the
shapes before the test. -/
noncomputable def checkCollision (sA : ShapeV) (tA : Transform) (sB : ShapeV) (tB : Transform) :
    Option CollisionData :=
  match sA, sB with
  | .circle rA, .circle rB => getCollisionCircleVsCircle ⟨rA, tA⟩ ⟨rB, tB⟩
  | .circle rA, .box w h => getCollisionAABBVsCircle ⟨w, h, tB⟩ ⟨rA, tA⟩
  | .box w h, .circle rB => getCollisionCircleVsAABB ⟨rB, tB⟩ ⟨w, h, tA⟩
  | .box _ _, .box _ _ => none

/-- The local `getInterpolatedTransform` helper of `Engine.subStep`:
linear interpolation of the position, rotation taken from the current
transform. -/
noncomputable def getInterpolatedTransform (previous current : Transform) (interpolation : ℝ) :
    Transform :=
  ⟨⟨previous.position.x + (current.position.x - previous.position.x) * interpolation,
    previous.position.y + (current.position.y - previous.position.y) * interpolation⟩,
   current.rotation⟩

/-- The expanded AABB built per body in `Engine.broadPhase`: the union
(min of mins, max of maxes) of the body's AABB at its previous pose and at
its current pose. -/
noncomputable def sweptAABB (s : ShapeV) (previous current : Transform) : AABB :=
  let c := generateAABB s current
  let p := generateAABB s previous
  ⟨⟨min p.min.x c.min.x, min p.min.y c.min.y⟩,
   ⟨max p.max.x c.max.x, max p.max.y c.max.y⟩⟩

/-- `Engine.broadPhase`: keep exactly the pairs whose swept AABBs pass the
AABB-vs-AABB test. -/
noncomputable def broadPhase (pairs : List (RigidBody × RigidBody)) :
    List (RigidBody × RigidBody) :=
  pairs.filter fun pr => checkCollisionAABBVsAABB
    (sweptAABB pr.1.shape pr.1.previous pr.1.transform)
    (sweptAABB pr.2.shape pr.2.previous pr.2.transform)

/-- The AABB test succeeds exactly when the boxes overlap on both axes. -/
lemma checkAABB_true_iff (A B : AABB) :
    checkCollisionAABBVsAABB A B = true ↔
      B.min.x ≤ A.max.x ∧ A.min.x ≤ B.max.x ∧ B.min.y ≤ A.max.y ∧ A.min.y ≤ B.max.y := by
  unfold checkCollisionAABBVsAABB
  split_ifs with h1 h2
  · simp only [Bool.false_eq_true, false_iff]
    rintro ⟨ha, hb, hc, hd⟩
    rcases h1 with h | h <;> linarith
  · simp only [Bool.false_eq_true, false_iff]
    rintro ⟨ha, hb, hc, hd⟩
    rcases h2 with h | h <;> linarith
  · push_neg at h1 h2
    simp only [true_iff]
    exact ⟨h1.1, h1.2, h2.1, h2.2⟩

/-- Contact characterization of the circle-circle getter on explicit data. -/
lemma circleVsCircle_isSome_iff (rA rB : ℝ) (tA tB : Transform) :
    (getCollisionCircleVsCircle ⟨rA, tA⟩ ⟨rB, tB⟩).isSome = true ↔
      (tA.position.x - tB.position.x) ^ 2 + (tA.position.y - tB.position.y) ^ 2
        ≤ (rA + rB) ^ 2 := by
  unfold getCollisionCircleVsCircle
  dsimp only
  split_ifs with hlt
  · exact iff_of_false (by simp) (not_le.mpr hlt)
  · exact iff_of_true (by simp) (not_lt.mp hlt)

/-- Contact characterization of the circle-box getter on explicit data. -/
lemma circleVsAABB_isSome_iff (r w h : ℝ) (tCir tBox : Transform) :
    (getCollisionCircleVsAABB ⟨r, tCir⟩ ⟨w, h, tBox⟩).isSome = true ↔
      (clamp (tBox.position.x - tCir.position.x) (-(w / 2)) (w / 2)
          - (tBox.position.x - tCir.position.x)) ^ 2
        + (clamp (tBox.position.y - tCir.position.y) (-(h / 2)) (h / 2)
          - (tBox.position.y - tCir.position.y)) ^ 2 ≤ r * r := by
  unfold getCollisionCircleVsAABB circleVsAABBInside
  dsimp only
  by_cases hgt : (clamp (tBox.position.x - tCir.position.x) (-(w / 2)) (w / 2)
      - (tBox.position.x - tCir.position.x)) ^ 2
    + (clamp (tBox.position.y - tCir.position.y) (-(h / 2)) (h / 2)
      - (tBox.position.y - tCir.position.y)) ^ 2 > r * r
  · rw [if_pos ⟨hgt, by simp⟩]
    exact iff_of_false (by simp) (not_le.mpr hgt)
  · rw [if_neg (fun hcon => hgt hcon.1), if_neg (by simp : ¬ (false = true))]
    exact iff_of_true (by simp) (not_lt.mp hgt)

/-- Contact characterization of the box-circle getter on explicit data. -/
lemma AABBVsCircle_isSome_iff (w h r : ℝ) (tBox tCir : Transform) :
    (getCollisionAABBVsCircle ⟨w, h, tBox⟩ ⟨r, tCir⟩).isSome = true ↔
      (clamp (tCir.position.x - tBox.position.x) (-(w / 2)) (w / 2)
          - (tCir.position.x - tBox.position.x)) ^ 2
        + (clamp (tCir.position.y - tBox.position.y) (-(h / 2)) (h / 2)
          - (tCir.position.y - tBox.position.y)) ^ 2 ≤ r * r := by
  unfold getCollisionAABBVsCircle circleVsAABBInside
  dsimp only
  by_cases hgt : (clamp (tCir.position.x - tBox.position.x) (-(w / 2)) (w / 2)
      - (tCir.position.x - tBox.position.x)) ^ 2
    + (clamp (tCir.position.y - tBox.position.y) (-(h / 2)) (h / 2)
      - (tCir.position.y - tBox.position.y)) ^ 2 > r * r
  · rw [if_pos ⟨hgt, by simp⟩]
    exact iff_of_false (by simp) (not_le.mpr hgt)
  · rw [if_neg (fun hcon => hgt hcon.1), if_neg (by simp : ¬ (false = true))]
    exact iff_of_true (by simp) (not_lt.mp hgt)

/-- If the clamped offset is within distance `r` of the offset, the offset
is within the extent enlarged by `r`. -/
lemma clamp_dist_bound (v e r : ℝ) (he : 0 ≤ e) (hr : 0 ≤ r)
    (h : (clamp v (-e) e - v) ^ 2 ≤ r ^ 2) : -(e + r) ≤ v ∧ v ≤ e + r := by
  have hlo : -e ≤ clamp v (-e) e := le_min (le_max_right _ _) (by linarith)
  have hhi : clamp v (-e) e ≤ e := min_le_right _ _
  have habs := abs_le_of_sq_le_sq' h hr
  exact ⟨by linarith [habs.2], by linarith [habs.1]⟩

/-- Axis bounds extracted from a circle-box contact. -/
lemma circleBoxCore (r w h dx dy : ℝ) (hr : 0 ≤ r) (hw : 0 ≤ w) (hh : 0 ≤ h)
    (hd : (clamp dx (-(w / 2)) (w / 2) - dx) ^ 2
        + (clamp dy (-(h / 2)) (h / 2) - dy) ^ 2 ≤ r * r) :
    (-(w / 2 + r) ≤ dx ∧ dx ≤ w / 2 + r) ∧ (-(h / 2 + r) ≤ dy ∧ dy ≤ h / 2 + r) := by
  have h1 : (clamp dx (-(w / 2)) (w / 2) - dx) ^ 2 ≤ r ^ 2 := by
    nlinarith [sq_nonneg (clamp dy (-(h / 2)) (h / 2) - dy)]
  have h2 : (clamp dy (-(h / 2)) (h / 2) - dy) ^ 2 ≤ r ^ 2 := by
    nlinarith [sq_nonneg (clamp dx (-(w / 2)) (w / 2) - dx)]
  exact ⟨clamp_dist_bound dx (w / 2) r (by linarith) hr h1,
    clamp_dist_bound dy (h / 2) r (by linarith) hr h2⟩

/-- A detected shape contact forces the two tight AABBs at the tested
poses to overlap on both axes. -/
lemma contact_overlap (sA sB : ShapeV) (tA tB : Transform) (hA : sA.wf) (hB : sB.wf)
    (hc : (checkCollision sA tA sB tB).isSome = true) :
    (generateAABB sB tB).min.x ≤ (generateAABB sA tA).max.x
    ∧ (generateAABB sA tA).min.x ≤ (generateAABB sB tB).max.x
    ∧ (generateAABB sB tB).min.y ≤ (generateAABB sA tA).max.y
    ∧ (generateAABB sA tA).min.y ≤ (generateAABB sB tB).max.y := by
  cases sA with
  | circle rA =>
    cases sB with
    | circle rB =>
      have hrA : (0 : ℝ) ≤ rA := hA
      have hrB : (0 : ℝ) ≤ rB := hB
      have hd := (circleVsCircle_isSome_iff rA rB tA tB).mp hc
      have hx := abs_le_of_sq_le_sq'
        (show (tA.position.x - tB.position.x) ^ 2 ≤ (rA + rB) ^ 2 by
          nlinarith [sq_nonneg (tA.position.y - tB.position.y)]) (by linarith)
      have hy := abs_le_of_sq_le_sq'
        (show (tA.position.y - tB.position.y) ^ 2 ≤ (rA + rB) ^ 2 by
          nlinarith [sq_nonneg (tA.position.x - tB.position.x)]) (by linarith)
      simp only [generateAABB]
      exact ⟨by linarith [hx.1], by linarith [hx.2], by linarith [hy.1], by linarith [hy.2]⟩
    | box w h =>
      obtain ⟨hw, hh⟩ := hB
      have hrA : (0 : ℝ) ≤ rA := hA
      have hd := (AABBVsCircle_isSome_iff w h rA tB tA).mp hc
      have hb := circleBoxCore rA w h (tA.position.x - tB.position.x)
        (tA.position.y - tB.position.y) hrA hw hh hd
      simp only [generateAABB]
      exact ⟨by linarith [hb.1.1], by linarith [hb.1.2],
        by linarith [hb.2.1], by linarith [hb.2.2]⟩
  | box w h =>
    cases sB with
    | circle rB =>
      obtain ⟨hw, hh⟩ := hA
      have hrB : (0 : ℝ) ≤ rB := hB
      have hd := (circleVsAABB_isSome_iff rB w h tB tA).mp hc
      have hb := circleBoxCore rB w h (tA.position.x - tB.position.x)
        (tA.position.y - tB.position.y) hrB hw hh hd
      simp only [generateAABB]
      exact ⟨by linarith [hb.1.1], by linarith [hb.1.2],
        by linarith [hb.2.1], by linarith [hb.2.2]⟩
    | box w2 h2 =>
      simp [checkCollision] at hc

/-- A convex interpolation of two scalars lies between their min and max. -/
lemma lerp_bound (p c t : ℝ) (h0 : 0 ≤ t) (h1 : t ≤ 1) :
    min p c ≤ p + (c - p) * t ∧ p + (c - p) * t ≤ max p c := by
  rcases le_total p c with hpc | hpc
  · rw [min_eq_left hpc, max_eq_right hpc]
    constructor <;> nlinarith
  · rw [min_eq_right hpc, max_eq_left hpc]
    constructor <;> nlinarith

/-- The tight AABB at any interpolated pose is contained in the swept
AABB on each axis. -/
lemma swept_contains (s : ShapeV) (p c : Transform) (t : ℝ) (h0 : 0 ≤ t) (h1 : t ≤ 1) :
    (sweptAABB s p c).min.x ≤ (generateAABB s (getInterpolatedTransform p c t)).min.x
    ∧ (generateAABB s (getInterpolatedTransform p c t)).max.x ≤ (sweptAABB s p c).max.x
    ∧ (sweptAABB s p c).min.y ≤ (generateAABB s (getInterpolatedTransform p c t)).min.y
    ∧ (generateAABB s (getInterpolatedTransform p c t)).max.y ≤ (sweptAABB s p c).max.y := by
  have hx := lerp_bound p.position.x c.position.x t h0 h1
  have hy := lerp_bound p.position.y c.position.y t h0 h1
  cases s with
  | circle r =>
    simp only [sweptAABB, generateAABB, getInterpolatedTransform]
    refine ⟨?_, ?_, ?_, ?_⟩
    · rw [min_sub_sub_right]; linarith [hx.1]
    · rw [max_add_add_right]; linarith [hx.2]
    · rw [min_sub_sub_right]; linarith [hy.1]
    · rw [max_add_add_right]; linarith [hy.2]
  | box w h =>
    simp only [sweptAABB, generateAABB, getInterpolatedTransform]
    refine ⟨?_, ?_, ?_, ?_⟩
    · rw [min_sub_sub_right]; linarith [hx.1]
    · rw [max_add_add_right]; linarith [hx.2]
    · rw [min_sub_sub_right]; linarith [hy.1]
    · rw [max_add_add_right]; linarith [hy.2]

/-- C6 (broad-phase soundness): whenever the narrow-phase shape test
reports a contact at some interpolated pose with parameter in [0,1]
between the two bodies' previous and current transforms, the swept AABBs
built by the broad phase overlap on both axes, so the pair survives the
broad-phase filter: the survivor set is a superset of the pairs in actual
contact (shapes assumed to have nonnegative extents). -/
theorem broadPhase_sound (A B : RigidBody) (hA : A.shape.wf) (hB : B.shape.wf)
    (t : ℝ) (h0 : 0 ≤ t) (h1 : t ≤ 1)
    (hc : (checkCollision A.shape (getInterpolatedTransform A.previous A.transform t)
        B.shape (getInterpolatedTransform B.previous B.transform t)).isSome = true) :
    checkCollisionAABBVsAABB (sweptAABB A.shape A.previous A.transform)
        (sweptAABB B.shape B.previous B.transform) = true
    ∧ ∀ pairs : List (RigidBody × RigidBody), (A, B) ∈ pairs → (A, B) ∈ broadPhase pairs := by
  have hover := contact_overlap A.shape B.shape
    (getInterpolatedTransform A.previous A.transform t)
    (getInterpolatedTransform B.previous B.transform t) hA hB hc
  have hsA := swept_contains A.shape A.previous A.transform t h0 h1
  have hsB := swept_contains B.shape B.previous B.transform t h0 h1
  have hmain : checkCollisionAABBVsAABB (sweptAABB A.shape A.previous A.transform)
      (sweptAABB B.shape B.previous B.transform) = true := by
    rw [checkAABB_true_iff]
    refine ⟨?_, ?_, ?_, ?_⟩ <;>
      linarith [hover.1, hover.2.1, hover.2.2.1, hover.2.2.2,
        hsA.1, hsA.2.1, hsA.2.2.1, hsA.2.2.2, hsB.1, hsB.2.1, hsB.2.2.1, hsB.2.2.2]
  refine ⟨hmain, fun pairs hmem => ?_⟩
  exact List.mem_filter.mpr ⟨hmem, hmain⟩

/-- C6 witness: two unit circles one unit apart, both at rest (previous
equals current), in contact at interpolation parameter 0: the swept AABB
test keeps the pair. -/
theorem broadPhase_sound_witness :
    checkCollisionAABBVsAABB
      (sweptAABB (.circle 1) ⟨⟨0, 0⟩, 0⟩ ⟨⟨0, 0⟩, 0⟩)
      (sweptAABB (.circle 1) ⟨⟨1, 0⟩, 0⟩ ⟨⟨1, 0⟩, 0⟩) = true :=
  (broadPhase_sound
    ⟨.circle 1, ⟨⟨0, 0⟩, 0⟩, ⟨⟨0, 0⟩, 0⟩, ⟨0, 0⟩, 1, 1, ⟨0, 0⟩, false⟩
    ⟨.circle 1, ⟨⟨1, 0⟩, 0⟩, ⟨⟨1, 0⟩, 0⟩, ⟨0, 0⟩, 1, 1, ⟨0, 0⟩, false⟩
    (by simp [ShapeV.wf]) (by simp [ShapeV.wf]) 0 le_rfl (by norm_num)
    ((circleVsCircle_isSome_iff 1 1
        (getInterpolatedTransform ⟨⟨0, 0⟩, 0⟩ ⟨⟨0, 0⟩, 0⟩ 0)
        (getInterpolatedTransform ⟨⟨1, 0⟩, 0⟩ ⟨⟨1, 0⟩, 0⟩ 0)).mpr
      (by norm_num [getInterpolatedTransform]))).1

end Pool
